import Mathlib

/-!
Shallow embedding of the NeonArc core: the OCR extraction pipeline
(`pipeline/ocr_module.py`) and the reconciliation / watch-dispatch glue
(`cli/cli.py`).  Paths are modelled as strings, per-token confidences as
rationals (the Python floats involved are exact on the values used), and
Python exceptions as `Option`/`PyCall` failure values.
-/

namespace NeonArc

/-- One OCR token as the engine reports it: one row of the `ocr_data`
dictionary in `OCRProcessor.process_image` (text, confidence and the
bounding-box geometry columns `left`, `top`, `width`, `height`). -/
structure Token where
  text : String
  conf : ℚ
  left : Int
  top : Int
  width : Int
  height : Int
  deriving DecidableEq

/-- One retained bounding-box entry, as built by `boxes.append({...})`
inside the token loop of `OCRProcessor.process_image`. -/
structure Box where
  text : String
  conf : ℚ
  left : Int
  top : Int
  width : Int
  height : Int
  deriving DecidableEq

/-- The `OCRResult` dataclass of `ocr_module.py`. -/
structure OCRResult where
  text : String
  confidence : ℚ
  language : String
  page_number : Option Nat
  bounding_boxes : List Box
  deriving DecidableEq

/-- The tokens `OCRProcessor.process_image` keeps: the loop
`for i, conf in enumerate(ocr_data['conf']): if conf > self.confidence_threshold:`
retains exactly the tokens whose confidence strictly exceeds the threshold,
in detection order. -/
def retainedTokens (threshold : ℚ) (toks : List Token) : List Token :=
  toks.filter fun tok => threshold < tok.conf

/-- The bounding-box record built from a retained token (the dictionary
appended to `boxes`); every field is copied from the `ocr_data` row. -/
def boxOfToken (tok : Token) : Box :=
  ⟨tok.text, tok.conf, tok.left, tok.top, tok.width, tok.height⟩

/-- `OCRProcessor.process_image` after the OCR engine call, as a function of
the token rows the engine returned: filter by confidence, join the retained
texts with single spaces (`' '.join(text_parts)`), average the retained
confidences (`np.mean(confidences) if confidences else 0.0`) and carry the
retained bounding boxes through. -/
def process_image (languages : String) (threshold : ℚ) (toks : List Token) : OCRResult :=
  let kept := retainedTokens threshold toks
  let confidences := kept.map Token.conf
  ⟨String.intercalate " " (kept.map Token.text),
   if confidences.isEmpty then 0 else confidences.sum / confidences.length,
   languages,
   none,
   kept.map boxOfToken⟩

/-- `OCRProcessor._process_pdf_page`: run one rasterized page through
`process_image` and stamp the page number on a successful result.
`pageOCR i` is the outcome of `process_image` on page `i` (`none` models the
per-page failure path of `process_image`, which catches the exception and
returns `None`). -/
def process_pdf_page (pageOCR : Nat → Option OCRResult) (i : Nat) : Option OCRResult :=
  (pageOCR i).map fun r => ⟨r.text, r.confidence, r.language, some i, r.bounding_boxes⟩

/-- `OCRProcessor.process_pdf`: page tasks are submitted to the worker pool
in page order (`executor.submit(self._process_pdf_page, path, i)` for
`i = 0..n-1`); the pool finishes them in some `completionOrder` and records
each finished future's value; collection then iterates the futures list in
submission order, `future.result()` reads the recorded value for that page,
and each non-`None` result is appended (`if result: results.append(result)`). -/
def process_pdf (pageOCR : Nat → Option OCRResult) (n : Nat)
    (completionOrder : List Nat) : List OCRResult :=
  let table := completionOrder.map fun i => (i, process_pdf_page pageOCR i)
  (List.range n).filterMap fun i => (table.lookup i).join

/-- Outcome of a Python call that may raise an exception. -/
inductive PyCall (α : Type) where
  | ok (val : α)
  | raises
  deriving DecidableEq

/-- The primary path of `OCRProcessor.process_file` is
`super().process_file(file_path, **kwargs)`.  `OCRProcessor`'s base class is
`object`, which has no `process_file` attribute, so this call raises
`AttributeError` on every input. -/
def super_process_file : PyCall String := PyCall.raises

/-- The fallback body `"\n".join(page.extract_text() for page in pdf.pages)`:
`extract_text()` is `none` for a page without a text layer, which makes the
join raise `TypeError` (caught by the surrounding `except`, yielding `none`). -/
def pdfplumber_join (pages : List (Option String)) : Option String :=
  if pages.all Option.isSome then some (String.intercalate "\n" (pages.filterMap id))
  else none

/-- `OCRProcessor.process_file`: try the primary path first; if it raises and
the file name ends in `.pdf`, try the `pdfplumber` text-layer fallback
(`plumber = none` models `pdfplumber.open` itself raising); every remaining
failure returns `None`. -/
def process_file (isPdf : Bool) (plumber : Option (List (Option String))) : Option String :=
  match super_process_file with
  | PyCall.ok s => some s
  | PyCall.raises =>
    if isPdf then
      match plumber with
      | some pages => pdfplumber_join pages
      | none => none
    else none

/-- The filesystem view and collaborators the `process` command consults:
`Path.is_file`, `Path.is_dir`, `Path.glob` (the listing already determined by
the `recursive` flag choosing between the patterns `"*"` and `"**/*"`),
`Path.parent`, the classifier `FileDetector.should_process_file`, and the
store query `Archivist.get_documents_in_directory(base, recursive)` returning
the recorded document paths. -/
structure Env where
  is_file : String → Bool
  is_dir : String → Bool
  glob : String → Bool → List String
  parent : String → String
  should_process : String → Bool
  documents_in_directory : String → Bool → List String

/-- The candidate files one root contributes to the worklist, from the first
loop of `process`: a file root is a singleton if the classifier accepts it; a
directory root contributes its glob listing filtered to classifier-accepted
files; anything else contributes nothing. -/
def rootCandidates (env : Env) (recursive : Bool) (p : String) : List String :=
  if env.is_file p then
    if env.should_process p then [p] else []
  else if env.is_dir p then
    (env.glob p recursive).filter fun fp => env.is_file fp && env.should_process fp
  else []

/-- The `files_to_process` list of `process`: roots are visited in order and
every candidate is appended (duplicates across overlapping roots are kept). -/
def files_to_process (env : Env) (recursive : Bool) (paths : List String) : List String :=
  paths.flatMap (rootCandidates env recursive)

/-- The `current_files` set of `process` (`current_files.add(...)` on the
same candidates that are appended to `files_to_process`). -/
def current_files (env : Env) (recursive : Bool) (paths : List String) : Finset String :=
  (files_to_process env recursive paths).toFinset

/-- `base_path = path if path.is_dir() else path.parent` in `process`. -/
def base_path (env : Env) (p : String) : String :=
  if env.is_dir p then p else env.parent p

/-- The `previous_files` set of `process`: for every root, the store is
queried under `base_path` with the scope's `recursive` flag and the answers
are unioned. -/
def previous_files (env : Env) (recursive : Bool) (paths : List String) : Finset String :=
  (paths.flatMap fun p => env.documents_in_directory (base_path env p) recursive).toFinset

/-- `deleted_files = previous_files - current_files` in `process`. -/
def deleted_files (env : Env) (recursive : Bool) (paths : List String) : Finset String :=
  previous_files env recursive paths \ current_files env recursive paths

/-- The `ReconciliationPlan` of the spec, as `process` materializes it:
`to_process` is the `files_to_process` worklist (a list, possibly with
duplicates), `to_retire` the `deleted_files` set. -/
structure ReconciliationPlan where
  to_process : List String
  to_retire : Finset String
  deriving DecidableEq

/-- The plan the `process` command computes for a scope. -/
def plan (env : Env) (recursive : Bool) (paths : List String) : ReconciliationPlan :=
  ⟨files_to_process env recursive paths, deleted_files env recursive paths⟩

/-- The sequence of `archivist.ingest_file` invocations a non-dry run of
`process` performs: one per entry of `files_to_process`, in list order
(`for file in files_to_process: cli.archivist.ingest_file(file)`). -/
def ingest_calls (env : Env) (recursive : Bool) (paths : List String) : List String :=
  files_to_process env recursive paths

/-- The same filesystem view with fallible enumeration: `glob p recursive`
is `none` when listing the directory root `p` raises (permission denied, the
root disappearing between listing and stat, ...). -/
structure EnvE where
  is_file : String → Bool
  is_dir : String → Bool
  glob : String → Bool → Option (List String)
  parent : String → String
  should_process : String → Bool
  documents_in_directory : String → Bool → List String

/-- One root's candidates under fallible enumeration: `none` when the glob
over a directory root raises. -/
def rootCandidatesE (env : EnvE) (recursive : Bool) (p : String) : Option (List String) :=
  if env.is_file p then
    some (if env.should_process p then [p] else [])
  else if env.is_dir p then
    (env.glob p recursive).map fun l => l.filter fun fp => env.is_file fp && env.should_process fp
  else some []

/-- The first loop of `process` under fallible enumeration: roots are visited
in order and an exception from any root propagates out of the loop
(the loop body has no per-root handler). -/
def gather_current (env : EnvE) (recursive : Bool) : List String → Option (List String)
  | [] => some []
  | p :: rest =>
    match rootCandidatesE env recursive p with
    | none => none
    | some h => (gather_current env recursive rest).map fun t => h ++ t

/-- The whole `process` command body under fallible enumeration: the single
`try/except` wrapping the body catches any exception, prints an error and
raises `click.Abort()` — modelled as `none`; no plan is produced and no
other root is reconciled. -/
def processE (env : EnvE) (recursive : Bool) (paths : List String) :
    Option ReconciliationPlan :=
  match gather_current env recursive paths with
  | none => none
  | some ftp =>
    some ⟨ftp,
      (paths.flatMap fun p =>
        env.documents_in_directory (if env.is_dir p then p else env.parent p) recursive).toFinset
        \ ftp.toFinset⟩

/-- The behaviour claim C7 describes, written from the claim's words for
comparison with `processE`: a root whose enumeration fails is logged and
contributes empty to `current`/`previous`, while every other root is still
reconciled and a plan is produced. -/
def processE_claimed (env : EnvE) (recursive : Bool) (paths : List String) :
    ReconciliationPlan :=
  let ftp := paths.flatMap fun p => (rootCandidatesE env recursive p).getD []
  ⟨ftp,
    (paths.flatMap fun p =>
      env.documents_in_directory (if env.is_dir p then p else env.parent p) recursive).toFinset
      \ ftp.toFinset⟩

/-- The behaviour claim C5 describes, written from the claim's words for
comparison with `previous_files`: for every root — file or directory — the
store is queried under that root itself. -/
def previous_files_claimed (env : Env) (recursive : Bool) (paths : List String) :
    Finset String :=
  (paths.flatMap fun p => env.documents_in_directory p recursive).toFinset

/-- The `WatcherEvent` delivered to the `watch` command's `handle_event`
callback. -/
structure WatcherEvent where
  path : String
  event_type : String
  is_directory : Bool
  deriving DecidableEq

/-- The store action a surviving event invokes. -/
inductive WatchAction where
  | ingest (p : String)
  | retire (p : String)
  deriving DecidableEq

/-- The `handle_event` callback of the `watch` command.  `matchFn p pat`
models `event.path.match(pattern)` and `excluded` the configured
`processing.excluded_patterns` list; the result is the store action invoked,
`none` when the event is dropped.  `created`/`modified` events drop
directories, then drop excluded paths, then ingest; `deleted` events drop
directories and then retire (no exclusion check); other event types fall
through the `if/elif` and do nothing. -/
def handle_event (matchFn : String → String → Bool) (excluded : List String)
    (e : WatcherEvent) : Option WatchAction :=
  if e.event_type == "created" || e.event_type == "modified" then
    if e.is_directory then none
    else if excluded.any (fun pat => matchFn e.path pat) then none
    else some (WatchAction.ingest e.path)
  else if e.event_type == "deleted" then
    if e.is_directory then none
    else some (WatchAction.retire e.path)
  else none

/-- A concrete literal pattern matcher for scenario evaluation: the path
matches the pattern exactly. -/
def eqPat (p pat : String) : Bool := p == pat

/-- Concrete scope for the C1 scenario: one directory `d` containing the
files `d/a.pdf` and `d/b.png`; the store reports `d/a.pdf` and `d/c.txt`
previously recorded under `d`; the classifier accepts everything. -/
def scenarioEnv : Env where
  is_file p := p == "d/a.pdf" || p == "d/b.png"
  is_dir p := p == "d"
  glob p _ := if p == "d" then ["d/a.pdf", "d/b.png"] else []
  parent _ := ""
  should_process _ := true
  documents_in_directory p _ := if p == "d" then ["d/a.pdf", "d/c.txt"] else []

/-- Concrete scope for the C5 counterexample: the single root is the file
`d/a.pdf` whose parent directory is `d`; the store has nothing recorded
under the root itself but reports the sibling `d/b.txt` under `d`. -/
def envC5 : Env where
  is_file p := p == "d/a.pdf"
  is_dir _ := false
  glob _ _ := []
  parent p := if p == "d/a.pdf" then "d" else ""
  should_process _ := true
  documents_in_directory p _ := if p == "d" then ["d/b.txt"] else []

/-- Concrete scope for the C7 counterexample: two directory roots; listing
`bad` raises, listing `good` succeeds and finds the processable file
`good/f`; the store has nothing recorded. -/
def envC7 : EnvE where
  is_file p := p == "good/f"
  is_dir p := p == "bad" || p == "good"
  glob p _ := if p == "good" then some ["good/f"] else none
  parent _ := ""
  should_process _ := true
  documents_in_directory _ _ := []

/-- The token rows of the spec's Page Extractor scenario:
`[("cat", 70), ("dog", 40)]`. -/
def catDogTokens : List Token :=
  [⟨"cat", 70, 1, 2, 3, 4⟩, ⟨"dog", 40, 5, 6, 7, 8⟩]

/-- Concrete per-page outcomes for a three-page PDF: pages 0 and 2 extract
successfully, page 1 fails. -/
def threePageOutcomes : Nat → Option OCRResult := fun i =>
  if i == 0 then some ⟨"page zero", 80, "eng", none, []⟩
  else if i == 2 then some ⟨"page two", 90, "eng", none, []⟩
  else none

/-- C1: for every scope the plan satisfies `to_retire = previous − current`
and `to_process = current` (every currently present, classifier-accepted file
is submitted to ingest even if already recorded), and on the scenario scope —
one directory `d` with files `a.pdf`, `b.png`, store reporting `a.pdf`,
`c.txt` under it — the plan is `to_process = {a.pdf, b.png}`,
`to_retire = {c.txt}`. -/
theorem C1_plan_delta :
    (∀ (env : Env) (recursive : Bool) (paths : List String),
      (plan env recursive paths).to_retire
          = previous_files env recursive paths \ current_files env recursive paths
        ∧ (plan env recursive paths).to_process.toFinset = current_files env recursive paths
        ∧ ∀ f ∈ current_files env recursive paths, f ∈ ingest_calls env recursive paths)
    ∧ plan scenarioEnv false ["d"] = ⟨["d/a.pdf", "d/b.png"], {"d/c.txt"}⟩ := by
  refine ⟨fun env recursive paths =>
    ⟨rfl, rfl, fun f hf => List.mem_toFinset.mp hf⟩, ?_⟩
  decide

/-- C4: for every scope, `to_process ∩ to_retire = ∅` — a currently present,
processable path is never simultaneously scheduled for retirement. -/
theorem C4_plan_disjoint (env : Env) (recursive : Bool) (paths : List String) :
    (plan env recursive paths).to_process.toFinset ∩ (plan env recursive paths).to_retire
      = ∅ :=
  Finset.disjoint_iff_inter_eq_empty.mp Finset.disjoint_sdiff

/-- C10: in one invocation, a file contributed by several roots appears once
per contributing root in the worklist, and ingest is invoked once per entry;
`current_files` is deduplicated while `files_to_process` keeps duplicates.
Scenario: the same directory listed twice doubles every ingest. -/
theorem C10_duplicate_roots :
    (∀ (env : Env) (recursive : Bool) (paths : List String) (f : String),
      (ingest_calls env recursive paths).count f
        = ((paths.map fun p => (rootCandidates env recursive p).count f).sum))
    ∧ ingest_calls scenarioEnv false ["d", "d"]
        = ["d/a.pdf", "d/b.png", "d/a.pdf", "d/b.png"]
    ∧ (ingest_calls scenarioEnv false ["d", "d"]).count "d/a.pdf" = 2
    ∧ current_files scenarioEnv false ["d", "d"] = {"d/a.pdf", "d/b.png"} := by
  refine ⟨fun env recursive paths f => ?_, by decide, by decide, by decide⟩
  simpa [Function.comp] using
    List.count_flatMap paths (rootCandidates env recursive) f

/-- C5 counterexample: scope = the single file root `d/a.pdf`.  The store has
nothing recorded under the root itself (the claim therefore predicts
`to_retire = ∅`), but the code queries the file root's parent directory `d`
and retires the sibling `d/b.txt`, which is not recorded under any root of
the scope. -/
theorem C5_counterexample :
    (plan envC5 false ["d/a.pdf"]).to_retire = {"d/b.txt"}
    ∧ previous_files_claimed envC5 false ["d/a.pdf"] = ∅
    ∧ (plan envC5 false ["d/a.pdf"]).to_retire
        ≠ previous_files_claimed envC5 false ["d/a.pdf"]
            \ current_files envC5 false ["d/a.pdf"] := by
  decide

/-- C5 amended: for a directory root the store is queried under the root
itself with the scope's recursion setting, but for a file root it is queried
under the file's parent directory; `to_retire` is always a subset of the
union of those answers, and when every root of the scope is a directory the
claim's description is exact. -/
theorem C5_previous_query_base :
    (∀ (env : Env) (recursive : Bool) (paths : List String),
      previous_files env recursive paths
          = (paths.flatMap fun p =>
              env.documents_in_directory
                (if env.is_dir p then p else env.parent p) recursive).toFinset
        ∧ (plan env recursive paths).to_retire ⊆ previous_files env recursive paths)
    ∧ ∀ (env : Env) (recursive : Bool) (paths : List String),
        (∀ p ∈ paths, env.is_dir p = true) →
        previous_files env recursive paths = previous_files_claimed env recursive paths := by
  constructor
  · exact fun env recursive paths => ⟨rfl, Finset.sdiff_subset⟩
  · intro env recursive paths h
    unfold previous_files previous_files_claimed
    congr 1
    induction paths with
    | nil => rfl
    | cons q rest ih =>
      simp only [List.flatMap_cons]
      rw [ih fun p hp => h p (List.mem_cons_of_mem _ hp)]
      have hq : env.is_dir q = true := h q (List.mem_cons_self _ _)
      simp [base_path, hq]

/-- Closed instance of `C5_previous_query_base`: on the all-directory scenario
scope the store is queried under the roots themselves. -/
theorem C5_previous_query_base_witness :
    (∀ p ∈ ["d"], scenarioEnv.is_dir p = true)
    ∧ previous_files scenarioEnv false ["d"] = previous_files_claimed scenarioEnv false ["d"] :=
  ⟨by decide, C5_previous_query_base.2 scenarioEnv false ["d"] (by decide)⟩

/-- Helper for C7: the first loop of `process` has no per-root handler, so
one root's enumeration failure propagates out of the whole loop. -/
theorem gather_current_fails (env : EnvE) (recursive : Bool) :
    ∀ (paths : List String) (p : String), p ∈ paths →
      rootCandidatesE env recursive p = none →
      gather_current env recursive paths = none := by
  intro paths
  induction paths with
  | nil => intro p hp _; cases hp
  | cons q rest ih =>
    intro p hp hfail
    rcases List.mem_cons.mp hp with h | h
    · subst h
      simp [gather_current, hfail]
    · cases hq : rootCandidatesE env recursive q with
      | none => simp [gather_current, hq]
      | some l => simp [gather_current, hq, ih p h hfail]

/-- C7 counterexample: scope with the roots `bad` (whose enumeration raises)
and `good` (containing the processable file `good/f`).  The claim predicts a
plan that treats `bad` as empty and still reconciles `good`
(`processE_claimed`), but the code's single command-level `try/except`
aborts: no plan is produced and `good` is not reconciled. -/
theorem C7_counterexample :
    processE envC7 true ["bad", "good"] = none
    ∧ processE_claimed envC7 true ["bad", "good"] = ⟨["good/f"], ∅⟩
    ∧ processE envC7 true ["bad", "good"]
        ≠ some (processE_claimed envC7 true ["bad", "good"]) := by
  decide

/-- C7 amended: an enumeration failure on any root of the scope aborts the
entire reconciliation — the exception propagates to the command-level
handler, no plan is produced, and no other root is reconciled. -/
theorem C7_enumeration_failure_aborts (env : EnvE) (recursive : Bool)
    (paths : List String)
    (h : ∃ p ∈ paths, rootCandidatesE env recursive p = none) :
    processE env recursive paths = none := by
  obtain ⟨p, hp, hfail⟩ := h
  unfold processE
  rw [gather_current_fails env recursive paths p hp hfail]

/-- Closed instance of `C7_enumeration_failure_aborts` on the concrete
two-root scope. -/
theorem C7_enumeration_failure_aborts_witness :
    (∃ p ∈ ["bad", "good"], rootCandidatesE envC7 true p = none)
    ∧ processE envC7 true ["bad", "good"] = none :=
  ⟨⟨"bad", by decide, by decide⟩,
   C7_enumeration_failure_aborts envC7 true ["bad", "good"] ⟨"bad", by decide, by decide⟩⟩

/-- C8 counterexample: a non-directory `deleted` event whose path matches a
configured exclusion pattern.  The claim says the event is dropped, but
`handle_event` checks exclusion patterns only on the `created`/`modified`
branch, so the event invokes `retire`. -/
theorem C8_counterexample :
    (["x.tmp"].any fun pat => eqPat "x.tmp" pat) = true
    ∧ handle_event eqPat ["x.tmp"] ⟨"x.tmp", "deleted", false⟩
        = some (WatchAction.retire "x.tmp") := by
  decide

/-- C8 amended: directory events are always dropped without invoking any
action; surviving `created`/`modified` events are dropped when the path
matches an exclusion pattern and otherwise invoke ingest; non-directory
`deleted` events always invoke retire — the exclusion patterns are not
consulted on the `deleted` branch. -/
theorem C8_dispatch (matchFn : String → String → Bool) (excluded : List String)
    (e : WatcherEvent) :
    (e.is_directory = true → handle_event matchFn excluded e = none)
    ∧ (e.is_directory = false →
        (e.event_type = "created" ∨ e.event_type = "modified") →
        ((excluded.any fun pat => matchFn e.path pat) = true →
          handle_event matchFn excluded e = none)
        ∧ ((excluded.any fun pat => matchFn e.path pat) = false →
          handle_event matchFn excluded e = some (WatchAction.ingest e.path)))
    ∧ (e.is_directory = false → e.event_type = "deleted" →
        handle_event matchFn excluded e = some (WatchAction.retire e.path)) := by
  obtain ⟨p, t, d⟩ := e
  refine ⟨?_, ?_, ?_⟩
  · intro hd
    subst hd
    simp only [handle_event]
    split
    · rfl
    · split <;> rfl
  · intro hd hcm
    subst hd
    rcases hcm with h | h <;> subst h <;>
      exact ⟨fun hx => by simp [handle_event, hx], fun hx => by simp [handle_event, hx]⟩
  · intro hd ht
    subst hd
    subst ht
    simp [handle_event]

/-- Closed instance of `C8_dispatch`: a surviving `deleted` event invokes
retire. -/
theorem C8_dispatch_witness :
    handle_event eqPat [] ⟨"a.txt", "deleted", false⟩
      = some (WatchAction.retire "a.txt") :=
  (C8_dispatch eqPat [] ⟨"a.txt", "deleted", false⟩).2.2 rfl rfl

/-- C2: for every token sequence and threshold in `[0, 100]`, the Page
Extractor retains exactly the tokens whose confidence strictly exceeds the
threshold, joins their texts with single spaces in detection order, averages
their confidences (`0` with empty text when none is retained — a valid
result, not an error), and carries their bounding boxes through unmodified;
on `[("cat", 70), ("dog", 40)]` at threshold `60` the text is `"cat"` and the
confidence `70`. -/
theorem C2_page_extraction (langs : String) (t : ℚ) (toks : List Token)
    (_h0 : 0 ≤ t) (_h100 : t ≤ 100) :
    (∀ tok, tok ∈ retainedTokens t toks ↔ tok ∈ toks ∧ t < tok.conf)
    ∧ (process_image langs t toks).text
        = String.intercalate " " ((retainedTokens t toks).map Token.text)
    ∧ (retainedTokens t toks ≠ [] →
        (process_image langs t toks).confidence
          = ((retainedTokens t toks).map Token.conf).sum / (retainedTokens t toks).length)
    ∧ (retainedTokens t toks = [] →
        (process_image langs t toks).confidence = 0
          ∧ (process_image langs t toks).text = "")
    ∧ (process_image langs t toks).bounding_boxes
        = (retainedTokens t toks).map boxOfToken
    ∧ (process_image "eng" 60 catDogTokens).text = "cat"
    ∧ (process_image "eng" 60 catDogTokens).confidence = 70
    ∧ (process_image "eng" 60 catDogTokens).bounding_boxes
        = [⟨"cat", 70, 1, 2, 3, 4⟩] := by
  refine ⟨?_, rfl, ?_, ?_, rfl, by decide, ?_, by decide⟩
  · intro tok
    simp [retainedTokens, List.mem_filter]
  · intro hne
    have hmap : ((retainedTokens t toks).map Token.conf).isEmpty = false := by
      cases h : retainedTokens t toks with
      | nil => exact absurd h hne
      | cons a l => simp [h]
    show (if ((retainedTokens t toks).map Token.conf).isEmpty then 0
        else ((retainedTokens t toks).map Token.conf).sum
          / (((retainedTokens t toks).map Token.conf).length : ℚ)) = _
    rw [hmap]
    simp
  · intro he
    constructor
    · show (if ((retainedTokens t toks).map Token.conf).isEmpty then 0
          else ((retainedTokens t toks).map Token.conf).sum
            / (((retainedTokens t toks).map Token.conf).length : ℚ)) = 0
      rw [he]
      rfl
    · show String.intercalate " " ((retainedTokens t toks).map Token.text) = ""
      rw [he]
      rfl
  · have hk : retainedTokens 60 catDogTokens = [⟨"cat", 70, 1, 2, 3, 4⟩] := by decide
    show (if ((retainedTokens 60 catDogTokens).map Token.conf).isEmpty then (0 : ℚ)
        else ((retainedTokens 60 catDogTokens).map Token.conf).sum
          / (((retainedTokens 60 catDogTokens).map Token.conf).length : ℚ)) = 70
    rw [hk]
    norm_num

/-- Closed instance of `C2_page_extraction` at threshold `60` on the
scenario tokens. -/
theorem C2_page_extraction_witness :
    ((0 : ℚ) ≤ 60 ∧ (60 : ℚ) ≤ 100)
    ∧ (process_image "eng" 60 catDogTokens).text
        = String.intercalate " " ((retainedTokens 60 catDogTokens).map Token.text) :=
  ⟨⟨by norm_num, by norm_num⟩,
   (C2_page_extraction "eng" 60 catDogTokens (by norm_num) (by norm_num)).2.1⟩

/-- C9: raising the confidence threshold never adds retained tokens — for
`t1 ≤ t2` the tokens retained at `t2` form a sublist (hence a subset, with
no larger count and no more bounding boxes) of those retained at `t1`, and
every retained token's confidence strictly exceeds the threshold. -/
theorem C9_threshold_monotonicity (langs : String) (t1 t2 : ℚ) (toks : List Token)
    (h : t1 ≤ t2) :
    (retainedTokens t2 toks).Sublist (retainedTokens t1 toks)
    ∧ (∀ tok ∈ retainedTokens t2 toks, tok ∈ retainedTokens t1 toks)
    ∧ (retainedTokens t2 toks).length ≤ (retainedTokens t1 toks).length
    ∧ (process_image langs t2 toks).bounding_boxes.length
        ≤ (process_image langs t1 toks).bounding_boxes.length
    ∧ ∀ tok ∈ retainedTokens t2 toks, t2 < tok.conf := by
  have hsub : (retainedTokens t2 toks).Sublist (retainedTokens t1 toks) := by
    apply List.monotone_filter_right
    intro a ha
    simp only [decide_eq_true_eq] at ha ⊢
    exact lt_of_le_of_lt h ha
  refine ⟨hsub, fun tok htok => hsub.subset htok, hsub.length_le, ?_, ?_⟩
  · show ((retainedTokens t2 toks).map boxOfToken).length
        ≤ ((retainedTokens t1 toks).map boxOfToken).length
    simpa [List.length_map] using hsub.length_le
  · intro tok htok
    have := List.mem_filter.mp htok
    simpa using this.2

/-- Closed instance of `C9_threshold_monotonicity` at thresholds `40 ≤ 60`
on the scenario tokens. -/
theorem C9_threshold_monotonicity_witness :
    (40 : ℚ) ≤ 60
    ∧ (retainedTokens 60 catDogTokens).length ≤ (retainedTokens 40 catDogTokens).length :=
  ⟨by norm_num,
   (C9_threshold_monotonicity "eng" 40 60 catDogTokens (by norm_num)).2.2.1⟩

/-- Helper for C3: looking a key up in the pool's result table returns the
value computed for that key, whatever order the table was built in. -/
theorem lookup_pair_map {α : Type} (v : Nat → α) (σ : List Nat) (i : Nat)
    (hi : i ∈ σ) : (σ.map fun j => (j, v j)).lookup i = some (v i) := by
  induction σ with
  | nil => cases hi
  | cons j rest ih =>
    by_cases hij : i = j
    · subst hij
      simp [List.lookup]
    · have hne : (i == j) = false := by simpa using hij
      have hmem : i ∈ rest := by
        rcases List.mem_cons.mp hi with h | h
        · exact absurd h hij
        · exact h
      simp [List.lookup, hne, ih hmem]

/-- Helper for C3: a filterMap whose kept value depends only on the index
equals a filter followed by a map. -/
theorem filterMap_option_map_const {ι α β : Type} (l : List ι) (f : ι → Option α)
    (g : ι → β) :
    (l.filterMap fun i => (f i).map fun _ => g i)
      = (l.filter fun i => (f i).isSome).map g := by
  induction l with
  | nil => rfl
  | cons a l ih => cases h : f a <;> simp [List.filter_cons, h, ih]

/-- C3: for every per-page outcome assignment and every completion order of
the worker pool (a permutation of the submitted page indices), `process_pdf`
returns the successful pages' results in strictly increasing page-number
order — the canonical submission-order filterMap — with failed pages skipped
and an all-failed document yielding `[]`, not an error. -/
theorem C3_pdf_page_order (pageOCR : Nat → Option OCRResult) (n : Nat)
    (σ : List Nat) (hσ : σ.Perm (List.range n)) :
    process_pdf pageOCR n σ = (List.range n).filterMap (process_pdf_page pageOCR)
    ∧ (process_pdf pageOCR n σ).map OCRResult.page_number
        = ((List.range n).filter fun i => (pageOCR i).isSome).map some
    ∧ (process_pdf pageOCR n σ).map OCRResult.text
        = (List.range n).filterMap (fun i => (pageOCR i).map OCRResult.text)
    ∧ List.Pairwise (· < ·) ((process_pdf pageOCR n σ).filterMap OCRResult.page_number)
    ∧ ((∀ i, pageOCR i = none) → process_pdf pageOCR n σ = []) := by
  have hmain : process_pdf pageOCR n σ
      = (List.range n).filterMap (process_pdf_page pageOCR) := by
    unfold process_pdf
    apply List.filterMap_congr
    intro i hi
    rw [lookup_pair_map (process_pdf_page pageOCR) σ i (hσ.mem_iff.mpr hi)]
    rfl
  have hstamp : ∀ i, (process_pdf_page pageOCR i).map OCRResult.page_number
      = (pageOCR i).map fun _ => (some i : Option Nat) := by
    intro i
    unfold process_pdf_page
    cases pageOCR i <;> rfl
  have hpn : (process_pdf pageOCR n σ).map OCRResult.page_number
      = ((List.range n).filter fun i => (pageOCR i).isSome).map some := by
    rw [hmain, List.map_filterMap,
      List.filterMap_congr fun i _ => hstamp i,
      filterMap_option_map_const]
  refine ⟨hmain, hpn, ?_, ?_, ?_⟩
  · rw [hmain, List.map_filterMap]
    apply List.filterMap_congr
    intro i _
    unfold process_pdf_page
    cases pageOCR i <;> rfl
  · have hfm : (process_pdf pageOCR n σ).filterMap OCRResult.page_number
        = (List.range n).filter fun i => (pageOCR i).isSome := by
      have h1 : (process_pdf pageOCR n σ).filterMap OCRResult.page_number
          = ((process_pdf pageOCR n σ).map OCRResult.page_number).filterMap id := by
        rw [List.filterMap_map]
        rfl
      rw [h1, hpn, List.filterMap_map]
      have h2 : (id ∘ (some : Nat → Option Nat)) = some := rfl
      rw [h2, List.filterMap_some]
    rw [hfm]
    exact (List.pairwise_lt_range n).sublist (List.filter_sublist _)
  · intro hall
    rw [hmain]
    have : ∀ i ∈ List.range n,
        process_pdf_page pageOCR i = (fun _ => (none : Option OCRResult)) i := by
      intro i _
      unfold process_pdf_page
      rw [hall i]
      rfl
    rw [List.filterMap_congr this]
    simp

/-- Closed instance of `C3_pdf_page_order`: three pages (page 1 fails)
collected under the completion order `[2, 0, 1]`. -/
theorem C3_pdf_page_order_witness :
    ([2, 0, 1].Perm (List.range 3))
    ∧ process_pdf threePageOutcomes 3 [2, 0, 1]
        = (List.range 3).filterMap (process_pdf_page threePageOutcomes) :=
  ⟨by decide, (C3_pdf_page_order threePageOutcomes 3 [2, 0, 1] (by decide)).1⟩

/-- C6: the primary path of `process_file` is a call to `object`'s
nonexistent `process_file`, so it raises `AttributeError` on every input —
no OCR extraction is ever attempted by `process_file`: every non-PDF input
yields `None`, and for PDFs the text-layer fallback is always the path
taken (its own failures also yielding `None`). -/
theorem C6_primary_always_raises :
    super_process_file = PyCall.raises
    ∧ (∀ plumber, process_file false plumber = none)
    ∧ process_file true (some [some "hello", some "world"]) = some "hello\nworld"
    ∧ process_file true none = none
    ∧ process_file true (some [some "a", none]) = none :=
  ⟨rfl, fun _ => rfl, by decide, rfl, by decide⟩

end NeonArc
